import Mathlib

/-!
Shallow embedding of the splitpdf repository (src/split.js and src/app.js).

The effectful parts of the code (file upload, message API, file write) are
modelled by explicit capability functions (`store`, `analyze`, `merge`,
`parse`) returning `Except`/`Option`, and the observable behaviour of a run
is captured as a result value plus a trace of events, mirroring the control
flow of the source line by line.
-/

/-- A thrown JS error as observed by the catch blocks: `error.message` and
`error.stack`. -/
structure JsError where
  message : String
  stack : String
deriving DecidableEq, Repr

/-- The relevant fields of the result of `anthropic.beta.files.upload`:
`uploadResult.id`, `uploadResult.filename`, `uploadResult.created_at`. -/
structure StoreResult where
  id : String
  filename : String
  createdAt : Nat
deriving DecidableEq, Repr

/-- One entry of the `uploadedFiles` array built by `splitAndUploadPDF`
(src/split.js).  The no-split branch omits `originalFilename` and
`uploadedAt`, hence the `Option` fields. -/
structure UploadRecord where
  fileId : String
  filename : String
  startPage : Nat
  endPage : Nat
  pageCount : Nat
  originalFilename : Option String
  uploadedAt : Option Nat
deriving DecidableEq, Repr

/-- The value returned by `splitAndUploadPDF`: either the success object
 (src/split.js lines 52-64 and 140-147) or the catch-block failure object
 (lines 151-155). -/
inductive RunResult where
  | success (message : String) (totalPages : Nat) (totalFilesCount : Nat)
      (uploadedFiles : List UploadRecord)
  | failure (error : String) (details : String)
deriving DecidableEq, Repr

/-- Observable events of an orchestration run, in program order: the start of
a store (upload) call, its successful resolution, and a progress-callback
invocation with the object passed to `onProgress` (src/split.js lines
128-134). -/
inductive Ev where
  | storeCall (filename : String)
  | storeOk (filename : String) (fileId : String)
  | progress (current : Nat) (total : Nat) (percentage : Nat)
      (currentFile : String) (fileId : String)
deriving DecidableEq, Repr

/-- Whether an event is a progress-callback invocation. -/
def Ev.isProgress : Ev → Bool
  | .progress .. => true
  | _ => false

/-- `Math.round((cur / tot) * 100)` (src/split.js line 131) on exact
rationals: round half up, computed as `floor((cur / tot) * 100 + 1 / 2)`. -/
def roundPct (cur tot : Nat) : Nat := (200 * cur + tot) / (2 * tot)

/-- `Math.ceil(totalPages / pagesPerFile)` (src/split.js line 74) for natural
numbers and `P >= 1`: the ceiling of `T / P`, computed as `(T + P - 1) / P`. -/
def totalFiles (T P : Nat) : Nat := (T + P - 1) / P

/-- The page range of chunk `i` (src/split.js lines 82-83):
`startPage = i * pagesPerFile`,
`endPage = Math.min(startPage + pagesPerFile, totalPages)`; half-open
`[startPage, endPage)` over 0-based page indices. -/
def chunkRange (T P i : Nat) : Nat × Nat := (i * P, min (i * P + P) T)

/-- The ordered sequence of page ranges produced by the splitter: the loop
`for (let i = 0; i < totalFiles; i++)` (src/split.js line 77), guarded by the
`totalPages <= pagesPerFile` early branch (line 39) which produces no split
ranges at all. -/
def splitRanges (T P : Nat) : List (Nat × Nat) :=
  if T ≤ P then [] else (List.range (totalFiles T P)).map (chunkRange T P)

/-- The chunk filename (src/split.js line 99), `i` being the 0-based loop
index: `baseFilename_part_(i+1)_pages_(startPage+1)-(endPage).pdf`. -/
def outputFilename (base : String) (i startPage endPage : Nat) : String :=
  base ++ "_part_" ++ toString (i + 1) ++ "_pages_" ++ toString (startPage + 1) ++
    "-" ++ toString endPage ++ ".pdf"

/-- The split-and-upload loop (src/split.js lines 77-138) over the listed
chunk indices: for each index compute the range and filename, call the store
capability, on success append the `uploadedFiles` entry (lines 116-124) and,
if a callback was supplied, emit the progress invocation (lines 127-135); a
store error escapes to the catch block, aborting the rest of the loop. -/
def uploadUnits (store : Nat → Except JsError StoreResult) (cb : Bool)
    (base : String) (T P n : Nat) :
    List Nat → Except JsError (List UploadRecord) × List Ev
  | [] => (Except.ok [], [])
  | i :: rest =>
      let startPage := i * P
      let endPage := min (startPage + P) T
      let fname := outputFilename base i startPage endPage
      match store i with
      | Except.error e => (Except.error e, [Ev.storeCall fname])
      | Except.ok sr =>
          let evs := [Ev.storeCall fname, Ev.storeOk fname sr.id] ++
            (if cb then [Ev.progress (i + 1) n (roundPct (i + 1) n) fname sr.id] else [])
          match uploadUnits store cb base T P n rest with
          | (Except.error e, evs2) => (Except.error e, evs ++ evs2)
          | (Except.ok recs, evs2) =>
              (Except.ok (⟨sr.id, fname, startPage + 1, endPage, endPage - startPage,
                  some sr.filename, some sr.createdAt⟩ :: recs), evs ++ evs2)

/-- `splitAndUploadPDF` (src/split.js lines 28-157), abstracted over the page
count `T` of the loaded document, the threshold `P`, the base filename, the
store capability (the `i`-th store call returns the `i`-th result or throws),
and whether an `onProgress` callback was supplied.  Returns the result object
together with the trace of upload/progress events. -/
def splitAndUploadPDF (T P : Nat) (base : String)
    (store : Nat → Except JsError StoreResult) (cb : Bool) :
    RunResult × List Ev :=
  if T ≤ P then
    match store 0 with
    | Except.error e => (RunResult.failure e.message e.stack, [Ev.storeCall (base ++ ".pdf")])
    | Except.ok sr =>
        (RunResult.success "PDF uploaded without splitting (fewer pages than split size)" T 1
          [⟨sr.id, sr.filename, 1, T, T, none, none⟩],
         [Ev.storeCall (base ++ ".pdf"), Ev.storeOk (base ++ ".pdf") sr.id])
  else
    match uploadUnits store cb base T P (totalFiles T P) (List.range (totalFiles T P)) with
    | (Except.error e, evs) => (RunResult.failure e.message e.stack, evs)
    | (Except.ok recs, evs) =>
        (RunResult.success
          ("Successfully split and uploaded PDF into " ++ toString (totalFiles T P) ++ " files")
          T (totalFiles T P) recs, evs)

/-! ### src/app.js -/

/-- One content block of a messages-API response; `text` is absent on
non-text blocks (JS `undefined`). -/
structure Block where
  text : Option String
deriving DecidableEq, Repr

/-- The relevant shape of a messages-API response: its `content` array. -/
structure Response where
  content : List Block
deriving DecidableEq, Repr

/-- One entry of the `results` constant in src/app.js: an uploaded file name
and its external identifier. -/
structure FileRef where
  file : String
  id : String
deriving DecidableEq, Repr

/-- The `results` constant (src/app.js lines 14-19). -/
def results : List FileRef :=
  [⟨"fifty.pdf", "file_011CUCchhG7PkDfiyvS1CspP"⟩,
   ⟨"hundred.pdf", "file_011CUCchZJeAzfiWdnZrNQKr"⟩,
   ⟨"oneFifty.pdf", "file_011CUCchXcgkj9RXa956vDst"⟩,
   ⟨"end.pdf", "file_011CUCchWirpGeA1FCSMYDE9"⟩]

/-- `response.content?.[0]?.text || ''` (src/app.js line 80): the text of the
first content block, or the empty string when there is no block or the block
has no text. -/
def extractText (r : Response) : String :=
  match r.content with
  | [] => ""
  | b :: _ => b.text.getD ""

/-- The `Promise.all(results.map(...))` fan-out (src/app.js lines 24-83): one
analyze call per file identifier; if any call rejects the aggregate rejects
with that error (modelled: the error of the first failing identifier in list
order), otherwise the ordered list of extracted payloads. -/
def mapAll (analyze : String → Except JsError Response) :
    List FileRef → Except JsError (List String)
  | [] => Except.ok []
  | f :: rest =>
      match analyze f.id with
      | Except.error e => Except.error e
      | Except.ok r =>
          match mapAll analyze rest with
          | Except.error e => Except.error e
          | Except.ok ts => Except.ok (extractText r :: ts)

/-- The characters of the code-fence-with-language token removed first:
`.replace(/```json/g, '')` (src/app.js line 140). -/
def fenceJson : List Char := "```json".data

/-- The characters of the bare code-fence token removed second:
`.replace(/```/g, '')` (src/app.js line 141). -/
def fence : List Char := "```".data

/-- Whitespace as stripped by `String.prototype.trim` (the characters this
pipeline can encounter). -/
def isJsWs (c : Char) : Bool := c == ' ' || c == '\n' || c == '\t' || c == '\r'

/-- `.trim()` (src/app.js line 142): drop whitespace from both ends. -/
def jsTrim (l : List Char) : List Char :=
  ((l.dropWhile isJsWs).reverse.dropWhile isJsWs).reverse

/-- Worker for global string replacement by the empty string: scans left to
right; `k` is the number of characters of a just-matched occurrence still to
be consumed.  At `k = 0`, a pattern occurrence starting here is deleted
(leftmost-first, non-overlapping, exactly the semantics of a global regex
replace of a literal pattern); otherwise the character is kept. -/
def removeAllGo (pat : List Char) : Nat → List Char → List Char
  | _, [] => []
  | 0, c :: rest =>
      if pat.isPrefixOf (c :: rest) then removeAllGo pat (pat.length - 1) rest
      else c :: removeAllGo pat 0 rest
  | k + 1, _ :: rest => removeAllGo pat k rest

/-- `s.replace(/pat/g, '')` for a literal pattern `pat`. -/
def removeAll (pat : List Char) (s : List Char) : List Char := removeAllGo pat 0 s

/-- The cleanup applied to the merge response before `JSON.parse`
(src/app.js lines 139-142):
`text.replace(/```json/g, '').replace(/```/g, '').trim()`. -/
def cleanText (s : String) : String :=
  String.mk (jsTrim (removeAll fence (removeAll fenceJson s.data)))

/-- The `TypeError` thrown by reading a property of `undefined`
(`msg.content[0]` absent, src/app.js line 139/152). -/
def typeErrorUndefined : JsError := ⟨"Cannot read properties of undefined", ""⟩

/-- The observable outcome of one `processFiles` run: the user-content
argument of each merge invocation (src/app.js lines 88-132), the files
written with their parsed contents (line 148), the raw response text logged
by the inner catch (line 152, `some none` when the logged text field was
absent), and the error reaching the outer catch (line 156). -/
structure AppOutcome (α : Type) where
  mergeArgs : List String
  writes : List (String × α)
  rawLogged : Option (Option String)
  errLogged : Option JsError
deriving DecidableEq, Repr

/-- `processFiles` (src/app.js lines 21-158), abstracted over the analyze
capability (per file identifier), the merge capability (per user-content
string), `JSON.parse` (per string, `none` when it throws), `Date.now()`, and
the file list.  Mirrors the control flow: fan-out, `join('\n')`, one merge
call, cleanup, parse, single write; the inner catch logs the raw text, the
outer catch swallows fan-out/merge errors. -/
def processFiles {α : Type} (analyze : String → Except JsError Response)
    (merge : String → Except JsError Response) (parse : String → Option α)
    (now : Nat) (files : List FileRef) : AppOutcome α :=
  match mapAll analyze files with
  | Except.error e => ⟨[], [], none, some e⟩
  | Except.ok payloads =>
      let combinedResults := String.intercalate "\n" payloads
      match merge combinedResults with
      | Except.error e => ⟨[combinedResults], [], none, some e⟩
      | Except.ok msg =>
          match msg.content with
          | [] => ⟨[combinedResults], [], none, some typeErrorUndefined⟩
          | b :: _ =>
              match b.text with
              | none => ⟨[combinedResults], [], some none, none⟩
              | some t =>
                  match parse (cleanText t) with
                  | some j =>
                      ⟨[combinedResults], [("output_" ++ toString now ++ ".json", j)], none, none⟩
                  | none => ⟨[combinedResults], [], some (some t), none⟩

/-! ### Arithmetic facts about the chunk count -/

/-- For positive `T` and `P`, the code's `Math.ceil(T / P)` equals
`(T - 1) / P + 1`. -/
theorem totalFiles_eq (T P : Nat) (hP : 0 < P) (hT : 0 < T) :
    totalFiles T P = (T - 1) / P + 1 := by
  unfold totalFiles
  have h1 : T + P - 1 = (T - 1) + P := by omega
  rw [h1, Nat.add_div_right _ hP]

/-- The chunk count is positive for a nonempty document. -/
theorem totalFiles_pos (T P : Nat) (hP : 0 < P) (hT : 0 < T) :
    0 < totalFiles T P := by
  rw [totalFiles_eq T P hP hT]; exact Nat.succ_pos _

/-- All chunks but the last start strictly below the page count. -/
theorem totalFiles_pred_mul_lt (T P : Nat) (hP : 0 < P) (hT : 0 < T) :
    (totalFiles T P - 1) * P < T := by
  rw [totalFiles_eq T P hP hT, Nat.add_sub_cancel]
  exact Nat.lt_of_le_of_lt (Nat.div_mul_le_self _ _) (by omega)

/-- `totalFiles` chunks of `P` pages cover the whole document. -/
theorem le_totalFiles_mul (T P : Nat) (hP : 0 < P) (hT : 0 < T) :
    T ≤ totalFiles T P * P := by
  rw [totalFiles_eq T P hP hT, Nat.succ_mul]
  have h := @Nat.lt_div_mul_add (T - 1) P hP
  have h2 : T - 1 + 1 = T := by omega
  calc T = T - 1 + 1 := h2.symm
    _ ≤ (T - 1) / P * P + P := Nat.succ_le_of_lt h

/-- Every chunk except (possibly) the last ends at a page index `≤ T`. -/
theorem chunk_mid_le (T P i : Nat) (hP : 0 < P) (hT : 0 < T)
    (hi : i + 1 < totalFiles T P) : i * P + P ≤ T := by
  have h1 : (i + 1) * P ≤ (totalFiles T P - 1) * P :=
    Nat.mul_le_mul_right P (by omega)
  have h2 := totalFiles_pred_mul_lt T P hP hT
  rw [Nat.succ_mul] at h1
  exact Nat.le_of_lt (Nat.lt_of_le_of_lt h1 h2)

/-- Every chunk starts strictly below the page count. -/
theorem chunk_start_lt (T P i : Nat) (hP : 0 < P) (hT : 0 < T)
    (hi : i < totalFiles T P) : i * P < T := by
  have h1 : i * P ≤ (totalFiles T P - 1) * P :=
    Nat.mul_le_mul_right P (by omega)
  exact Nat.lt_of_le_of_lt h1 (totalFiles_pred_mul_lt T P hP hT)

/-- Partial sums of the chunk lengths: the first `m` chunks of the split
cover exactly `min (m * P) T` pages. -/
theorem sum_chunkLens (T P : Nat) (hP : 0 < P) (hT : 0 < T) :
    ∀ m, m ≤ totalFiles T P →
      (((List.range m).map fun i => (chunkRange T P i).2 - (chunkRange T P i).1).sum) =
        min (m * P) T := by
  intro m
  induction m with
  | zero => intro _; simp
  | succ k ih =>
      intro hm
      rw [List.range_succ, List.map_append, List.sum_append, ih (by omega)]
      have hk : k * P < T := chunk_start_lt T P k hP hT (by omega)
      simp only [List.map_cons, List.map_nil, List.sum_cons, List.sum_nil, chunkRange]
      rw [Nat.min_eq_left (Nat.le_of_lt hk), Nat.succ_mul]
      have hle : k * P ≤ min (k * P + P) T :=
        le_min (Nat.le_add_right _ _) (Nat.le_of_lt hk)
      omega

/-- C1: for every total page count `T` and threshold `P ≥ 1` with `T > P`,
the splitter produces exactly `ceil(T / P)` ranges; range `i` is the
half-open interval `[i * P, min ((i + 1) * P) T)`; the ranges start at 0, are
contiguous, nonempty (in order), non-overlapping, end at `T`, cover exactly
the pages `p < T` (no gap, no overlap, no out-of-bounds), their lengths sum
to `T`, every range except the last has length exactly `P`, and the last has
length at least 1. -/
theorem c1_splitter_ranges (T P : Nat) (hP : 1 ≤ P) (hTP : P < T) :
    (splitRanges T P).length = totalFiles T P ∧
    totalFiles T P = (T + P - 1) / P ∧
    splitRanges T P =
      (List.range (totalFiles T P)).map (fun i => (i * P, min ((i + 1) * P) T)) ∧
    (∀ i, i < totalFiles T P → chunkRange T P i = (i * P, min ((i + 1) * P) T)) ∧
    (chunkRange T P 0).1 = 0 ∧
    (∀ i, i + 1 < totalFiles T P → (chunkRange T P i).2 = (chunkRange T P (i + 1)).1) ∧
    (∀ i, i < totalFiles T P → (chunkRange T P i).1 < (chunkRange T P i).2) ∧
    (∀ i j, i < j → j < totalFiles T P → (chunkRange T P i).2 ≤ (chunkRange T P j).1) ∧
    (chunkRange T P (totalFiles T P - 1)).2 = T ∧
    (∀ p, p < T ↔ ∃ i, i < totalFiles T P ∧
        (chunkRange T P i).1 ≤ p ∧ p < (chunkRange T P i).2) ∧
    ((splitRanges T P).map (fun r => r.2 - r.1)).sum = T ∧
    (∀ i, i + 1 < totalFiles T P → (chunkRange T P i).2 - (chunkRange T P i).1 = P) ∧
    1 ≤ (chunkRange T P (totalFiles T P - 1)).2 - (chunkRange T P (totalFiles T P - 1)).1 := by
  have hT : 0 < T := by omega
  have hP0 : 0 < P := hP
  have hif : ¬ T ≤ P := by omega
  have hn1 : 0 < totalFiles T P := totalFiles_pos T P hP0 hT
  have hTn : T ≤ totalFiles T P * P := le_totalFiles_mul T P hP0 hT
  have hpred : (totalFiles T P - 1) * P < T := totalFiles_pred_mul_lt T P hP0 hT
  have hlast : (chunkRange T P (totalFiles T P - 1)).2 = T := by
    simp only [chunkRange]
    refine Nat.min_eq_right ?_
    have h9 : (totalFiles T P - 1) * P + P = totalFiles T P * P := by
      rw [← Nat.succ_mul]
      congr 1
      omega
    rw [h9]
    exact hTn
  refine ⟨?_, rfl, ?_, ?_, ?_, ?_, ?_, ?_, hlast, ?_, ?_, ?_, ?_⟩
  · rw [splitRanges, if_neg hif]
    simp
  · rw [splitRanges, if_neg hif]
    refine List.map_congr_left ?_
    intro i _
    simp [chunkRange, Nat.succ_mul]
  · intro i _
    simp [chunkRange, Nat.succ_mul]
  · simp [chunkRange]
  · intro i hi
    have h := chunk_mid_le T P i hP0 hT hi
    simp only [chunkRange]
    rw [Nat.min_eq_left h, Nat.succ_mul]
  · intro i hi
    simp only [chunkRange]
    exact lt_min (Nat.lt_add_of_pos_right hP0) (chunk_start_lt T P i hP0 hT hi)
  · intro i j hij hj
    simp only [chunkRange]
    refine le_trans (min_le_left _ _) ?_
    rw [← Nat.succ_mul]
    exact Nat.mul_le_mul_right P hij
  · intro p
    constructor
    · intro hp
      refine ⟨p / P, ?_, ?_, ?_⟩
      · rw [totalFiles_eq T P hP0 hT]
        have hple : p ≤ T - 1 := by omega
        exact Nat.lt_succ_of_le (Nat.div_le_div_right hple)
      · simp only [chunkRange]
        exact Nat.div_mul_le_self p P
      · simp only [chunkRange]
        exact lt_min (@Nat.lt_div_mul_add p P hP0) hp
    · rintro ⟨i, _, _, h2⟩
      simp only [chunkRange] at h2
      exact Nat.lt_of_lt_of_le h2 (min_le_right _ _)
  · have hs := sum_chunkLens T P hP0 hT (totalFiles T P) le_rfl
    rw [Nat.min_eq_right hTn] at hs
    rw [splitRanges, if_neg hif, List.map_map]
    exact hs
  · intro i hi
    have h := chunk_mid_le T P i hP0 hT hi
    simp only [chunkRange]
    rw [Nat.min_eq_left h, Nat.add_sub_cancel_left]
  · simp only [chunkRange] at hlast ⊢
    rw [hlast]
    set s := (totalFiles T P - 1) * P with hs
    omega

/-- Witness for C1 at the spec scenario `T = 120`, `P = 50` (three ranges
`[0,50), [50,100), [100,120)`). -/
theorem c1_splitter_ranges_witness :
    (splitRanges 120 50).length = totalFiles 120 50 ∧
    totalFiles 120 50 = (120 + 50 - 1) / 50 ∧
    splitRanges 120 50 =
      (List.range (totalFiles 120 50)).map (fun i => (i * 50, min ((i + 1) * 50) 120)) ∧
    (∀ i, i < totalFiles 120 50 → chunkRange 120 50 i = (i * 50, min ((i + 1) * 50) 120)) ∧
    (chunkRange 120 50 0).1 = 0 ∧
    (∀ i, i + 1 < totalFiles 120 50 → (chunkRange 120 50 i).2 = (chunkRange 120 50 (i + 1)).1) ∧
    (∀ i, i < totalFiles 120 50 → (chunkRange 120 50 i).1 < (chunkRange 120 50 i).2) ∧
    (∀ i j, i < j → j < totalFiles 120 50 → (chunkRange 120 50 i).2 ≤ (chunkRange 120 50 j).1) ∧
    (chunkRange 120 50 (totalFiles 120 50 - 1)).2 = 120 ∧
    (∀ p, p < 120 ↔ ∃ i, i < totalFiles 120 50 ∧
        (chunkRange 120 50 i).1 ≤ p ∧ p < (chunkRange 120 50 i).2) ∧
    ((splitRanges 120 50).map (fun r => r.2 - r.1)).sum = 120 ∧
    (∀ i, i + 1 < totalFiles 120 50 → (chunkRange 120 50 i).2 - (chunkRange 120 50 i).1 = 50) ∧
    1 ≤ (chunkRange 120 50 (totalFiles 120 50 - 1)).2 -
        (chunkRange 120 50 (totalFiles 120 50 - 1)).1 :=
  c1_splitter_ranges 120 50 (by decide) (by decide)

/-- C2: for `T ≤ P` the splitter produces zero ranges and
`splitAndUploadPDF` uploads the entire original document as one unit,
returning the success result with exactly one upload record spanning the
full document 1-based (`startPage 1`, `endPage T`); this includes `T = 0`
(a run with zero split units), which is a success, not an error. -/
theorem c2_no_split (T P : Nat) (base : String)
    (store : Nat → Except JsError StoreResult) (cb : Bool) (sr : StoreResult)
    (hTP : T ≤ P) (hstore : store 0 = Except.ok sr) :
    splitRanges T P = [] ∧
    splitAndUploadPDF T P base store cb =
      (RunResult.success "PDF uploaded without splitting (fewer pages than split size)" T 1
        [⟨sr.id, sr.filename, 1, T, T, none, none⟩],
       [Ev.storeCall (base ++ ".pdf"), Ev.storeOk (base ++ ".pdf") sr.id]) := by
  constructor
  · rw [splitRanges, if_pos hTP]
  · rw [splitAndUploadPDF, if_pos hTP, hstore]

/-- Witness for C2 at the `T = 0` edge case: zero split ranges, success. -/
theorem c2_no_split_witness :
    splitRanges 0 50 = [] ∧
    splitAndUploadPDF 0 50 "doc" (fun _ => Except.ok ⟨"file_1", "doc.pdf", 3⟩) true =
      (RunResult.success "PDF uploaded without splitting (fewer pages than split size)" 0 1
        [⟨"file_1", "doc.pdf", 1, 0, 0, none, none⟩],
       [Ev.storeCall ("doc" ++ ".pdf"), Ev.storeOk ("doc" ++ ".pdf") "file_1"]) :=
  c2_no_split 0 50 "doc" (fun _ => Except.ok ⟨"file_1", "doc.pdf", 3⟩) true
    ⟨"file_1", "doc.pdf", 3⟩ (by decide) rfl

/-- C3: the chunk filename is exactly
`{base}_part_{seq}_pages_{start+1}-{end}.pdf` (the sequence index `i + 1`
being 1-based for 0-based loop index `i`); filename generation is
deterministic in its inputs; and the `T = 120`, `P = 50` scenario with base
name `doc` yields the three expected names. -/
theorem c3_filename_convention :
    (∀ base i s e, outputFilename base i s e =
        base ++ "_part_" ++ toString (i + 1) ++ "_pages_" ++ toString (s + 1) ++
          "-" ++ toString e ++ ".pdf") ∧
    (∀ b1 b2 i1 i2 s1 s2 e1 e2, b1 = b2 → i1 = i2 → s1 = s2 → e1 = e2 →
        outputFilename b1 i1 s1 e1 = outputFilename b2 i2 s2 e2) ∧
    (List.range (totalFiles 120 50)).map
        (fun i => outputFilename "doc" i (chunkRange 120 50 i).1 (chunkRange 120 50 i).2) =
      ["doc_part_1_pages_1-50.pdf", "doc_part_2_pages_51-100.pdf",
       "doc_part_3_pages_101-120.pdf"] := by
  refine ⟨fun _ _ _ _ => rfl, ?_, by decide⟩
  intro b1 b2 i1 i2 s1 s2 e1 e2 hb hi hs he
  rw [hb, hi, hs, he]

/-- Witness for C3 instantiating the determinism conjunct. -/
theorem c3_filename_convention_witness :
    outputFilename "doc" 2 100 120 = outputFilename "doc" 2 100 120 :=
  c3_filename_convention.2.1 "doc" "doc" 2 2 100 100 120 120 rfl rfl rfl rfl

/-- With an all-ok store and a callback supplied, the upload loop emits, per
listed chunk index and in list order, exactly the block store-call,
store-resolved, progress-invocation, and collects the upload records in
order. -/
theorem uploadUnits_ok_trace (store : Nat → Except JsError StoreResult)
    (base : String) (T P n : Nat) (sr : Nat → StoreResult) :
    ∀ l : List Nat, (∀ i ∈ l, store i = Except.ok (sr i)) →
    uploadUnits store true base T P n l =
      (Except.ok (l.map fun i =>
          (⟨(sr i).id, outputFilename base i (i * P) (min (i * P + P) T), i * P + 1,
            min (i * P + P) T, min (i * P + P) T - i * P,
            some (sr i).filename, some (sr i).createdAt⟩ : UploadRecord)),
       l.flatMap fun i =>
          [Ev.storeCall (outputFilename base i (i * P) (min (i * P + P) T)),
           Ev.storeOk (outputFilename base i (i * P) (min (i * P + P) T)) (sr i).id,
           Ev.progress (i + 1) n (roundPct (i + 1) n)
             (outputFilename base i (i * P) (min (i * P + P) T)) (sr i).id]) := by
  intro l
  induction l with
  | nil => intro _; rfl
  | cons i rest ih =>
      intro hok
      have h1 : store i = Except.ok (sr i) := hok i (List.mem_cons_self i rest)
      have h2 := ih fun x hx => hok x (List.mem_cons_of_mem _ hx)
      rw [uploadUnits, h1, h2]
      simp

/-- C4 (amended): with a progress callback supplied and every store call
succeeding, a split run (`T > P`) produces the event trace consisting, for
each unit index `i` in strict order `0, 1, ...`, of that unit's store call,
its resolution, and then exactly one progress invocation with fields
`current = i + 1`, `total = n`, `percentage = round((i+1)/n*100)`,
`currentFile` and the external `fileId` — so each invocation happens after
its unit's store call resolves and before the next unit's upload begins; in
a no-split run (`T ≤ P`, a single whole-document unit) the callback is never
invoked. -/
theorem c4_progress_callback_order (T P : Nat) (base : String)
    (store : Nat → Except JsError StoreResult) (sr : Nat → StoreResult)
    (hok : ∀ i, i < totalFiles T P → store i = Except.ok (sr i)) :
    (P < T →
      (splitAndUploadPDF T P base store true).2 =
        (List.range (totalFiles T P)).flatMap (fun i =>
          [Ev.storeCall (outputFilename base i (i * P) (min (i * P + P) T)),
           Ev.storeOk (outputFilename base i (i * P) (min (i * P + P) T)) (sr i).id,
           Ev.progress (i + 1) (totalFiles T P) (roundPct (i + 1) (totalFiles T P))
             (outputFilename base i (i * P) (min (i * P + P) T)) (sr i).id])) ∧
    (T ≤ P → (splitAndUploadPDF T P base store true).2.countP Ev.isProgress = 0) := by
  constructor
  · intro hTP
    have hif : ¬ T ≤ P := by omega
    have htr := uploadUnits_ok_trace store base T P (totalFiles T P) sr
      (List.range (totalFiles T P)) (fun i hi => hok i (List.mem_range.mp hi))
    rw [splitAndUploadPDF, if_neg hif, htr]
  · intro hTP
    rw [splitAndUploadPDF, if_pos hTP]
    cases h0 : store 0 with
    | error e => rfl
    | ok sr0 => rfl

/-- Counterexample to C4 as stated: in the single-unit no-split run
`T = 30`, `P = 50` (the spec scenario) with a callback supplied and the
store succeeding, the run succeeds with exactly one uploaded unit, yet the
progress callback is invoked zero times, not once. -/
theorem c4_counterexample :
    (splitAndUploadPDF 30 50 "doc" (fun _ => Except.ok ⟨"file_1", "doc.pdf", 0⟩) true).1 =
      RunResult.success "PDF uploaded without splitting (fewer pages than split size)" 30 1
        [⟨"file_1", "doc.pdf", 1, 30, 30, none, none⟩] ∧
    ((splitAndUploadPDF 30 50 "doc" (fun _ => Except.ok ⟨"file_1", "doc.pdf", 0⟩) true).2.countP
        Ev.isProgress) = 0 :=
  ⟨rfl, rfl⟩

/-- Witness for C4 (amended) at `T = 120`, `P = 50`: three units, three
in-order progress invocations at 33%, 67%, 100%. -/
theorem c4_progress_callback_order_witness :
    (50 < 120 →
      (splitAndUploadPDF 120 50 "doc" (fun i => Except.ok ⟨"file_" ++ toString i, "doc.pdf", i⟩)
          true).2 =
        (List.range (totalFiles 120 50)).flatMap (fun i =>
          [Ev.storeCall (outputFilename "doc" i (i * 50) (min (i * 50 + 50) 120)),
           Ev.storeOk (outputFilename "doc" i (i * 50) (min (i * 50 + 50) 120))
             ((fun j => (⟨"file_" ++ toString j, "doc.pdf", j⟩ : StoreResult)) i).id,
           Ev.progress (i + 1) (totalFiles 120 50) (roundPct (i + 1) (totalFiles 120 50))
             (outputFilename "doc" i (i * 50) (min (i * 50 + 50) 120))
             ((fun j => (⟨"file_" ++ toString j, "doc.pdf", j⟩ : StoreResult)) i).id])) ∧
    (120 ≤ 50 →
      (splitAndUploadPDF 120 50 "doc" (fun i => Except.ok ⟨"file_" ++ toString i, "doc.pdf", i⟩)
          true).2.countP Ev.isProgress = 0) :=
  c4_progress_callback_order 120 50 "doc"
    (fun i => Except.ok ⟨"file_" ++ toString i, "doc.pdf", i⟩)
    (fun j => ⟨"file_" ++ toString j, "doc.pdf", j⟩) (fun _ _ => rfl)

/-- If every store call before some listed index succeeds and that index's
store call throws, the upload loop's result is exactly that error. -/
theorem uploadUnits_first_error (store : Nat → Except JsError StoreResult)
    (cb : Bool) (base : String) (T P n j : Nat) (e : JsError) :
    ∀ (l1 : List Nat) (l2 : List Nat), (∀ k ∈ l1, ∃ s, store k = Except.ok s) →
      store j = Except.error e →
      (uploadUnits store cb base T P n (l1 ++ j :: l2)).1 = Except.error e := by
  intro l1
  induction l1 with
  | nil =>
      intro l2 _ herr
      rw [List.nil_append, uploadUnits, herr]
  | cons k rest ih =>
      intro l2 hok herr
      obtain ⟨s, hs⟩ := hok k (List.mem_cons_self k rest)
      have ih2 := ih l2 (fun x hx => hok x (List.mem_cons_of_mem _ hx)) herr
      rw [List.cons_append, uploadUnits, hs]
      cases hrec : uploadUnits store cb base T P n (rest ++ j :: l2) with
      | mk fst snd =>
          rw [hrec] at ih2
          simp only at ih2
          rw [ih2]

/-- Any strict lower bound of `n` splits `List.range n` around itself. -/
theorem range_split (n j : Nat) (h : j < n) :
    ∃ l2, List.range n = List.range j ++ j :: l2 := by
  induction n with
  | zero => omega
  | succ m ih =>
      rcases Nat.lt_succ_iff_lt_or_eq.mp h with h2 | h2
      · obtain ⟨l2, hl⟩ := ih h2
        exact ⟨l2 ++ [m], by
          rw [List.range_succ, hl, List.append_assoc, List.cons_append]⟩
      · subst h2
        exact ⟨[], by rw [List.range_succ]⟩

/-- C5: in any run (split or no-split) in which some store call fails —
while all earlier store calls succeeded — the whole orchestration aborts:
the caller receives the catch-block failure value built from the error
(`{success: false, error, details}`), and no list of upload records is
surfaced, no matter how many units had already uploaded. -/
theorem c5_upload_failure_aborts (T P : Nat) (base : String)
    (store : Nat → Except JsError StoreResult) (cb : Bool) (e : JsError) (j : Nat)
    (hj : j < if T ≤ P then 1 else totalFiles T P)
    (hpre : ∀ k, k < j → ∃ s, store k = Except.ok s)
    (herr : store j = Except.error e) :
    (splitAndUploadPDF T P base store cb).1 = RunResult.failure e.message e.stack := by
  by_cases hTP : T ≤ P
  · rw [if_pos hTP] at hj
    have hj0 : j = 0 := by omega
    subst hj0
    rw [splitAndUploadPDF, if_pos hTP, herr]
  · rw [if_neg hTP] at hj
    obtain ⟨l2, hl⟩ := range_split (totalFiles T P) j hj
    have h1 := uploadUnits_first_error store cb base T P (totalFiles T P) j e
      (List.range j) l2 (fun k hk => hpre k (List.mem_range.mp hk)) herr
    rw [← hl] at h1
    rw [splitAndUploadPDF, if_neg hTP]
    cases hrec : uploadUnits store cb base T P (totalFiles T P)
        (List.range (totalFiles T P)) with
    | mk fst snd =>
        rw [hrec] at h1
        simp only at h1
        rw [h1]

/-- Witness for C5: `T = 120`, `P = 50`, the second store call throws after
the first succeeded; the run returns the failure object. -/
theorem c5_upload_failure_aborts_witness :
    (splitAndUploadPDF 120 50 "doc"
        (fun i => if i = 1 then Except.error ⟨"network down", "trace"⟩
                  else Except.ok ⟨"file_1", "doc.pdf", 0⟩) true).1 =
      RunResult.failure "network down" "trace" :=
  c5_upload_failure_aborts 120 50 "doc"
    (fun i => if i = 1 then Except.error ⟨"network down", "trace"⟩
              else Except.ok ⟨"file_1", "doc.pdf", 0⟩) true ⟨"network down", "trace"⟩ 1
    (by decide) (fun k hk => ⟨⟨"file_1", "doc.pdf", 0⟩, by
      have hk0 : k = 0 := by omega
      subst hk0
      rfl⟩) rfl

/-- If every analyze call before some listed file succeeds and that file's
analyze call rejects, the fan-out aggregate rejects with that error. -/
theorem mapAll_first_error (analyze : String → Except JsError Response)
    (f : FileRef) (e : JsError) :
    ∀ (l1 l2 : List FileRef), (∀ g ∈ l1, ∃ r, analyze g.id = Except.ok r) →
      analyze f.id = Except.error e →
      mapAll analyze (l1 ++ f :: l2) = Except.error e := by
  intro l1
  induction l1 with
  | nil =>
      intro l2 _ herr
      rw [List.nil_append, mapAll, herr]
  | cons g rest ih =>
      intro l2 hok herr
      obtain ⟨r, hr⟩ := hok g (List.mem_cons_self g rest)
      have ih2 := ih l2 (fun x hx => hok x (List.mem_cons_of_mem _ hx)) herr
      rw [List.cons_append, mapAll, hr, ih2]

/-- C6: in the extraction fan-out, if any one of the concurrently launched
analyze calls rejects (modelled as the first rejecting identifier in list
order, the error `Promise.all` propagates), the aggregate operation reports
failure carrying exactly that failing call's error, no partial-success
payload list is surfaced, no merge call is made, and no output file is
written. -/
theorem c6_fanout_failure {α : Type} (analyze merge : String → Except JsError Response)
    (parse : String → Option α) (now : Nat) (l1 l2 : List FileRef) (f : FileRef)
    (e : JsError) (hok : ∀ g ∈ l1, ∃ r, analyze g.id = Except.ok r)
    (herr : analyze f.id = Except.error e) :
    processFiles analyze merge parse now (l1 ++ f :: l2) =
      ⟨[], [], none, some e⟩ := by
  rw [processFiles, mapAll_first_error analyze f e l1 l2 hok herr]

/-- Witness for C6: the third of the four `results` identifiers rejects;
the outcome carries its error and performs no merge call and no write. -/
theorem c6_fanout_failure_witness :
    processFiles (α := Nat)
      (fun s => if s = "file_011CUCchXcgkj9RXa956vDst"
                then Except.error ⟨"overloaded", "trace2"⟩
                else Except.ok ⟨[⟨some "[]"⟩]⟩)
      (fun _ => Except.ok ⟨[⟨some "[]"⟩]⟩) (fun _ => none) 17
      ([⟨"fifty.pdf", "file_011CUCchhG7PkDfiyvS1CspP"⟩,
        ⟨"hundred.pdf", "file_011CUCchZJeAzfiWdnZrNQKr"⟩] ++
        ⟨"oneFifty.pdf", "file_011CUCchXcgkj9RXa956vDst"⟩ ::
        [⟨"end.pdf", "file_011CUCchWirpGeA1FCSMYDE9"⟩]) =
      ⟨[], [], none, some ⟨"overloaded", "trace2"⟩⟩ :=
  c6_fanout_failure
    (fun s => if s = "file_011CUCchXcgkj9RXa956vDst"
              then Except.error ⟨"overloaded", "trace2"⟩
              else Except.ok ⟨[⟨some "[]"⟩]⟩)
    (fun _ => Except.ok ⟨[⟨some "[]"⟩]⟩) (fun _ => none) 17
    [⟨"fifty.pdf", "file_011CUCchhG7PkDfiyvS1CspP"⟩,
     ⟨"hundred.pdf", "file_011CUCchZJeAzfiWdnZrNQKr"⟩]
    [⟨"end.pdf", "file_011CUCchWirpGeA1FCSMYDE9"⟩]
    ⟨"oneFifty.pdf", "file_011CUCchXcgkj9RXa956vDst"⟩
    ⟨"overloaded", "trace2"⟩
    (by intro g hg
        refine ⟨⟨[⟨some "[]"⟩]⟩, ?_⟩
        fin_cases hg <;> rfl)
    rfl

/-- C7: whenever the fan-out succeeds, the consolidator joins all payloads
with newline separators into a single user-text blob and invokes the merge
capability exactly once per run with that blob — regardless of the payload
contents and of the merge outcome. -/
theorem c7_single_merge_call {α : Type} (analyze merge : String → Except JsError Response)
    (parse : String → Option α) (now : Nat) (files : List FileRef)
    (payloads : List String) (h : mapAll analyze files = Except.ok payloads) :
    (processFiles analyze merge parse now files).mergeArgs =
      [String.intercalate "\n" payloads] := by
  cases hm : merge (String.intercalate "\n" payloads) with
  | error e => simp [processFiles, h, hm]
  | ok msg =>
      cases hc : msg.content with
      | nil => simp [processFiles, h, hm, hc]
      | cons b bs =>
          cases ht : b.text with
          | none => simp [processFiles, h, hm, hc, ht]
          | some t =>
              cases hp : parse (cleanText t) with
              | none => simp [processFiles, h, hm, hc, ht, hp]
              | some j => simp [processFiles, h, hm, hc, ht, hp]

/-- Witness for C7: two conflicting equity payloads (the spec scenario) are
joined with a newline and sent in one merge call. -/
theorem c7_single_merge_call_witness :
    (processFiles (α := Nat)
        (fun s => if s = "id1"
                  then Except.ok ⟨[⟨some "[{eq60}]"⟩]⟩
                  else Except.ok ⟨[⟨some "[{eqNA}]"⟩]⟩)
        (fun _ => Except.ok ⟨[⟨some "{}"⟩]⟩) (fun _ => none) 17
        [⟨"a.pdf", "id1"⟩, ⟨"b.pdf", "id2"⟩]).mergeArgs =
      [String.intercalate "\n" ["[{eq60}]", "[{eqNA}]"]] :=
  c7_single_merge_call
    (fun s => if s = "id1"
              then Except.ok ⟨[⟨some "[{eq60}]"⟩]⟩
              else Except.ok ⟨[⟨some "[{eqNA}]"⟩]⟩)
    (fun _ => Except.ok ⟨[⟨some "{}"⟩]⟩) (fun _ => none) 17
    [⟨"a.pdf", "id1"⟩, ⟨"b.pdf", "id2"⟩] ["[{eq60}]", "[{eqNA}]"] rfl

/-! ### Cleanup-scan lemmas for the code-fence stripping (C8) -/

/-- Scan step: at skip state 0 with a pattern occurrence starting here, the
occurrence is deleted and the scan continues in skip state `pat.length - 1`. -/
theorem removeAllGo_zero_cons_pos (pat : List Char) (c : Char) (rest : List Char)
    (h : pat.isPrefixOf (c :: rest) = true) :
    removeAllGo pat 0 (c :: rest) = removeAllGo pat (pat.length - 1) rest := by
  rw [removeAllGo, if_pos h]

/-- Scan step: at skip state 0 with no pattern occurrence starting here, the
character is kept. -/
theorem removeAllGo_zero_cons_neg (pat : List Char) (c : Char) (rest : List Char)
    (h : ¬ pat.isPrefixOf (c :: rest) = true) :
    removeAllGo pat 0 (c :: rest) = c :: removeAllGo pat 0 rest := by
  rw [removeAllGo, if_neg h]

/-- Scan step: inside a matched occurrence the character is consumed. -/
theorem removeAllGo_succ_cons (pat : List Char) (k : Nat) (c : Char) (rest : List Char) :
    removeAllGo pat (k + 1) (c :: rest) = removeAllGo pat k rest := by
  rw [removeAllGo]

/-- Consuming a skip of exactly `d.length` characters across `d` lands the
scan at state 0 on the remainder. -/
theorem removeAllGo_consume (pat : List Char) :
    ∀ (d l : List Char), removeAllGo pat d.length (d ++ l) = removeAllGo pat 0 l := by
  intro d
  induction d with
  | nil => intro l; rfl
  | cons c d2 ih =>
      intro l
      rw [List.cons_append, List.length_cons, removeAllGo_succ_cons]
      exact ih l

/-- A leading literal occurrence of the (nonempty) pattern is deleted. -/
theorem removeAll_skip (pat l : List Char) (hp : pat ≠ []) :
    removeAll pat (pat ++ l) = removeAll pat l := by
  cases pat with
  | nil => exact absurd rfl hp
  | cons p ps =>
      rw [removeAll, removeAll, List.cons_append, removeAllGo_zero_cons_pos]
      · have hl : (p :: ps).length - 1 = ps.length := by simp
        rw [hl]
        exact removeAllGo_consume (p :: ps) ps l
      · rw [List.isPrefixOf_iff_prefix, ← List.cons_append]
        exact List.prefix_append _ _

/-- No occurrence of the 7-character token starting with three backticks and
ending in `n` can span into a trailing bare 3-backtick fence: if it is a
prefix of `m ++ fence` it already is a prefix of `m`. -/
theorem fenceJson_prefix_of_append (m : List Char)
    (h : fenceJson <+: m ++ fence) : fenceJson <+: m := by
  have h1 : fenceJson = (m ++ fence).take 7 := by
    have h2 := List.prefix_iff_eq_take.mp h
    have hl : fenceJson.length = 7 := rfl
    rw [hl] at h2
    exact h2
  rw [List.take_append_eq_append_take] at h1
  by_cases hm : 7 ≤ m.length
  · have h3 : 7 - m.length = 0 := by omega
    rw [h3, List.take_zero, List.append_nil] at h1
    rw [List.prefix_iff_eq_take]
    have hl : fenceJson.length = 7 := rfl
    rw [hl]
    exact h1
  · exfalso
    push_neg at hm
    have hlen := congrArg List.length h1
    rw [List.length_append, List.length_take, List.length_take] at hlen
    have hfj : fenceJson.length = 7 := rfl
    have hf : fence.length = 3 := rfl
    rw [hfj, hf] at hlen
    have hd : 7 - m.length = 1 ∨ 7 - m.length = 2 ∨ 7 - m.length = 3 := by omega
    have hlast := congrArg List.getLast? h1
    rcases hd with hd | hd | hd <;> rw [hd] at hlast <;>
      rw [List.getLast?_append_of_ne_nil _ (by decide)] at hlast <;>
      exact absurd hlast (by decide)

/-- If the bare 3-backtick fence is a prefix of `m ++ fence` without being a
prefix of `m`, then `m` is a run of at most two backticks. -/
theorem fence_prefix_of_append (m : List Char) (h : fence <+: m ++ fence)
    (hn : ¬ fence <+: m) : m = [] ∨ m = "`".data ∨ m = "``".data := by
  have h1 : fence = (m ++ fence).take 3 := by
    have h2 := List.prefix_iff_eq_take.mp h
    have hl : fence.length = 3 := rfl
    rw [hl] at h2
    exact h2
  rw [List.take_append_eq_append_take] at h1
  by_cases hm : 3 ≤ m.length
  · exfalso
    have h3 : 3 - m.length = 0 := by omega
    rw [h3, List.take_zero, List.append_nil] at h1
    refine hn ?_
    rw [List.prefix_iff_eq_take]
    have hl : fence.length = 3 := rfl
    rw [hl]
    exact h1
  · push_neg at hm
    have ht : m.take 3 = m := List.take_of_length_le (by omega)
    rw [ht] at h1
    match m, hm with
    | [], _ => exact Or.inl rfl
    | [a], _ =>
        refine Or.inr (Or.inl ?_)
        have hff : fence = "`".data ++ fence.take (3 - ([a] : List Char).length) := rfl
        have hr : ([a] : List Char) ++ fence.take (3 - ([a] : List Char).length) =
            "`".data ++ fence.take (3 - ([a] : List Char).length) := h1.symm.trans hff
        exact (List.append_inj hr rfl).1
    | [a, b], _ =>
        refine Or.inr (Or.inr ?_)
        have hff : fence = "``".data ++ fence.take (3 - ([a, b] : List Char).length) := rfl
        have hr : ([a, b] : List Char) ++ fence.take (3 - ([a, b] : List Char).length) =
            "``".data ++ fence.take (3 - ([a, b] : List Char).length) := h1.symm.trans hff
        exact (List.append_inj hr rfl).1
    | a :: b :: c :: rest, hm => simp at hm; omega

/-- Appending the bare fence never creates or destroys an occurrence of the
json-fence token: the cleanup scan distributes over the appended fence. -/
theorem go7_append : ∀ (l : List Char) (k : Nat), k ≤ l.length →
    removeAllGo fenceJson k (l ++ fence) = removeAllGo fenceJson k l ++ fence := by
  intro l
  induction l with
  | nil =>
      intro k hk
      have hk0 : k = 0 := by simpa using hk
      subst hk0
      decide
  | cons c l2 ih =>
      intro k hk
      cases k with
      | succ k2 =>
          rw [List.cons_append, removeAllGo_succ_cons, removeAllGo_succ_cons]
          exact ih k2 (by simpa using hk)
      | zero =>
          rw [List.cons_append]
          by_cases hpre : fenceJson.isPrefixOf (c :: (l2 ++ fence)) = true
          · have hpre2 : fenceJson <+: (c :: l2) := by
              apply fenceJson_prefix_of_append
              have h2 := List.isPrefixOf_iff_prefix.mp hpre
              rwa [← List.cons_append] at h2
            have hpre2b : fenceJson.isPrefixOf (c :: l2) = true :=
              List.isPrefixOf_iff_prefix.mpr hpre2
            rw [removeAllGo_zero_cons_pos _ _ _ hpre, removeAllGo_zero_cons_pos _ _ _ hpre2b]
            have hl : fenceJson.length - 1 = 6 := rfl
            rw [hl]
            have hlen : 7 ≤ l2.length + 1 := by
              have h3 := hpre2.length_le
              have h4 : fenceJson.length = 7 := rfl
              rw [h4, List.length_cons] at h3
              exact h3
            exact ih 6 (by omega)
          · have hpre2 : ¬ fenceJson.isPrefixOf (c :: l2) = true := by
              intro hc
              apply hpre
              rw [List.isPrefixOf_iff_prefix] at hc ⊢
              have h3 := hc.trans (List.prefix_append (c :: l2) fence)
              rwa [List.cons_append] at h3
            rw [removeAllGo_zero_cons_neg _ _ _ hpre, removeAllGo_zero_cons_neg _ _ _ hpre2]
            rw [ih 0 (Nat.zero_le _), List.cons_append]

/-- Appending a bare fence to any text is a no-op for the second cleanup
pass: the trailing fence is always absorbed by the scan. -/
theorem go3_absorb : ∀ (l : List Char) (k : Nat), k ≤ l.length →
    removeAllGo fence k (l ++ fence) = removeAllGo fence k l := by
  intro l
  induction l with
  | nil =>
      intro k hk
      have hk0 : k = 0 := by simpa using hk
      subst hk0
      decide
  | cons c l2 ih =>
      intro k hk
      cases k with
      | succ k2 =>
          rw [List.cons_append, removeAllGo_succ_cons, removeAllGo_succ_cons]
          exact ih k2 (by simpa using hk)
      | zero =>
          rw [List.cons_append]
          by_cases hpre : fence.isPrefixOf (c :: (l2 ++ fence)) = true
          · by_cases hpre2 : fence.isPrefixOf (c :: l2) = true
            · rw [removeAllGo_zero_cons_pos _ _ _ hpre, removeAllGo_zero_cons_pos _ _ _ hpre2]
              have hl : fence.length - 1 = 2 := rfl
              rw [hl]
              have hlen : 3 ≤ l2.length + 1 := by
                have h3 := (List.isPrefixOf_iff_prefix.mp hpre2).length_le
                have h4 : fence.length = 3 := rfl
                rw [h4, List.length_cons] at h3
                exact h3
              exact ih 2 (by omega)
            · have hp : fence <+: ((c :: l2) ++ fence) := by
                rw [List.cons_append]
                exact List.isPrefixOf_iff_prefix.mp hpre
              have hn : ¬ fence <+: (c :: l2) := fun hc =>
                hpre2 (List.isPrefixOf_iff_prefix.mpr hc)
              rcases fence_prefix_of_append (c :: l2) hp hn with h0 | h1 | h1
              · exact absurd h0 (by simp)
              · rw [← List.cons_append, h1]
                decide
              · rw [← List.cons_append, h1]
                decide
          · have hpre2 : ¬ fence.isPrefixOf (c :: l2) = true := by
              intro hc
              apply hpre
              rw [List.isPrefixOf_iff_prefix] at hc ⊢
              have h3 := hc.trans (List.prefix_append (c :: l2) fence)
              rwa [List.cons_append] at h3
            rw [removeAllGo_zero_cons_neg _ _ _ hpre, removeAllGo_zero_cons_neg _ _ _ hpre2]
            rw [ih 0 (Nat.zero_le _)]

/-- C8: for every merge-response text `t`, the cleanup (globally deleting
the token made of three backticks followed by `json`, then the bare
three-backtick token, then trimming) makes the fenced and unfenced forms
identical — wrapping `t` in the json fence and the closing fence and then
cleaning yields exactly the same string (hence the same parse result) as
cleaning `t` itself. -/
theorem c8_fence_wrap_clean (t : String) :
    cleanText ("```json" ++ t ++ "```") = cleanText t := by
  rw [cleanText, cleanText]
  have hd : ("```json" ++ t ++ "```").data = fenceJson ++ (t.data ++ fence) := by
    rw [String.data_append, String.data_append, List.append_assoc]
    rfl
  rw [hd, removeAll_skip fenceJson (t.data ++ fence) (by decide)]
  have h1 : removeAll fenceJson (t.data ++ fence) = removeAll fenceJson t.data ++ fence := by
    rw [removeAll, removeAll]
    exact go7_append t.data 0 (Nat.zero_le _)
  rw [h1]
  have h2 : removeAll fence (removeAll fenceJson t.data ++ fence) =
      removeAll fence (removeAll fenceJson t.data) := by
    rw [removeAll, removeAll]
    exact go3_absorb (removeAll fenceJson t.data) 0 (Nat.zero_le _)
  rw [h2]

/-- C9: when the run reaches the consolidation step with merge-response text
`t`, then (a) if the cleaned text does not parse as structured data, the
consolidation fails: no output file is written and the raw uncleaned text
`t` is still surfaced to the caller/log for manual recovery; (b) if it
parses to `j`, the parsed tree is written exactly once, to the fresh
time-derived name `output_{now}.json`, and no raw-recovery log happens. -/
theorem c9_consolidation_parse {α : Type} (analyze merge : String → Except JsError Response)
    (parse : String → Option α) (now : Nat) (files : List FileRef)
    (payloads : List String) (msg : Response) (b : Block) (bs : List Block) (t : String)
    (h1 : mapAll analyze files = Except.ok payloads)
    (h2 : merge (String.intercalate "\n" payloads) = Except.ok msg)
    (h3 : msg.content = b :: bs) (h4 : b.text = some t) :
    (parse (cleanText t) = none →
      (processFiles analyze merge parse now files).writes = [] ∧
      (processFiles analyze merge parse now files).rawLogged = some (some t) ∧
      (processFiles analyze merge parse now files).errLogged = none) ∧
    (∀ j, parse (cleanText t) = some j →
      (processFiles analyze merge parse now files).writes =
        [("output_" ++ toString now ++ ".json", j)] ∧
      (processFiles analyze merge parse now files).rawLogged = none) := by
  constructor
  · intro hp
    simp [processFiles, h1, h2, h3, h4, hp]
  · intro j hp
    simp [processFiles, h1, h2, h3, h4, hp]

/-- Witness for C9: a concrete run whose merge response text parses after
cleanup; exactly one write to `output_17.json` results. -/
theorem c9_consolidation_parse_witness :
    ((fun s => if s = "[1]" then (some 1 : Option Nat) else none) (cleanText "```json[1]```") =
        none →
      (processFiles (fun _ => Except.ok ⟨[⟨some "[]"⟩]⟩)
          (fun _ => Except.ok ⟨[⟨some "```json[1]```"⟩]⟩)
          (fun s => if s = "[1]" then (some 1 : Option Nat) else none) 17
          [⟨"a.pdf", "id1"⟩]).writes = [] ∧
      (processFiles (fun _ => Except.ok ⟨[⟨some "[]"⟩]⟩)
          (fun _ => Except.ok ⟨[⟨some "```json[1]```"⟩]⟩)
          (fun s => if s = "[1]" then (some 1 : Option Nat) else none) 17
          [⟨"a.pdf", "id1"⟩]).rawLogged = some (some "```json[1]```") ∧
      (processFiles (fun _ => Except.ok ⟨[⟨some "[]"⟩]⟩)
          (fun _ => Except.ok ⟨[⟨some "```json[1]```"⟩]⟩)
          (fun s => if s = "[1]" then (some 1 : Option Nat) else none) 17
          [⟨"a.pdf", "id1"⟩]).errLogged = none) ∧
    (∀ j, (fun s => if s = "[1]" then (some 1 : Option Nat) else none) (cleanText "```json[1]```") =
        some j →
      (processFiles (fun _ => Except.ok ⟨[⟨some "[]"⟩]⟩)
          (fun _ => Except.ok ⟨[⟨some "```json[1]```"⟩]⟩)
          (fun s => if s = "[1]" then (some 1 : Option Nat) else none) 17
          [⟨"a.pdf", "id1"⟩]).writes = [("output_" ++ toString 17 ++ ".json", j)] ∧
      (processFiles (fun _ => Except.ok ⟨[⟨some "[]"⟩]⟩)
          (fun _ => Except.ok ⟨[⟨some "```json[1]```"⟩]⟩)
          (fun s => if s = "[1]" then (some 1 : Option Nat) else none) 17
          [⟨"a.pdf", "id1"⟩]).rawLogged = none) :=
  c9_consolidation_parse (fun _ => Except.ok ⟨[⟨some "[]"⟩]⟩)
    (fun _ => Except.ok ⟨[⟨some "```json[1]```"⟩]⟩)
    (fun s => if s = "[1]" then (some 1 : Option Nat) else none) 17
    [⟨"a.pdf", "id1"⟩] ["[]"] ⟨[⟨some "```json[1]```"⟩]⟩ ⟨some "```json[1]```"⟩ []
    "```json[1]```" rfl rfl rfl rfl

/-- C10 (implicit): an analyze call that succeeds but returns a response
with no content blocks, or whose first block has no text field, contributes
the empty string as that chunk's payload instead of failing the extraction:
the fan-out aggregate still succeeds, with `""` in that chunk's position. -/
theorem c10_empty_payload (analyze : String → Except JsError Response)
    (l1 l2 : List FileRef) (ps1 ps2 : List String) (f : FileRef) (r : Response)
    (hr : analyze f.id = Except.ok r)
    (hdeg : r.content = [] ∨ ∃ b bs, r.content = b :: bs ∧ b.text = none)
    (h1 : mapAll analyze l1 = Except.ok ps1)
    (h2 : mapAll analyze l2 = Except.ok ps2) :
    extractText r = "" ∧
    mapAll analyze (l1 ++ f :: l2) = Except.ok (ps1 ++ "" :: ps2) := by
  have hext : extractText r = "" := by
    rcases hdeg with h | ⟨b, bs, hc, ht⟩
    · rw [extractText, h]
    · simp [extractText, hc, ht]
  refine ⟨hext, ?_⟩
  induction l1 generalizing ps1 with
  | nil =>
      rw [mapAll] at h1
      cases h1
      rw [List.nil_append, mapAll, hr, h2]
      simp [hext]
  | cons g rest ih =>
      rw [mapAll] at h1
      cases hg : analyze g.id with
      | error e => rw [hg] at h1; cases h1
      | ok rg =>
          rw [hg] at h1
          cases hrest : mapAll analyze rest with
          | error e => rw [hrest] at h1; cases h1
          | ok ts =>
              rw [hrest] at h1
              cases h1
              rw [List.cons_append, mapAll, hg, ih ts hrest]
              rfl

/-- Witness for C10: the middle of three succeeding analyze calls returns a
response whose only block has no text; the aggregate succeeds with `""` as
the second payload. -/
theorem c10_empty_payload_witness :
    extractText ⟨[⟨none⟩]⟩ = "" ∧
    mapAll
      (fun s => if s = "id2" then Except.ok ⟨[⟨none⟩]⟩ else Except.ok ⟨[⟨some "[]"⟩]⟩)
      ([⟨"a.pdf", "id1"⟩] ++ ⟨"b.pdf", "id2"⟩ :: [⟨"c.pdf", "id3"⟩]) =
      Except.ok (["[]"] ++ "" :: ["[]"]) :=
  c10_empty_payload
    (fun s => if s = "id2" then Except.ok ⟨[⟨none⟩]⟩ else Except.ok ⟨[⟨some "[]"⟩]⟩)
    [⟨"a.pdf", "id1"⟩] [⟨"c.pdf", "id3"⟩] ["[]"] ["[]"] ⟨"b.pdf", "id2"⟩ ⟨[⟨none⟩]⟩
    rfl (Or.inr ⟨⟨none⟩, [], rfl, rfl⟩) rfl rfl
